import Mathlib

/-!
Verification of the filtering/aggregation core of
`AL_001_Customized_News_Digest/automation_news_daily.py`.

The Python strings are modelled as lists of characters (`Str`), Python
string methods as executable Lean functions, and the stateful
`RSSAutomationNewsDigest` object as explicit argument passing: the
`news_items` attribute becomes the `init_items` argument of `fetch_news`,
and the external world (network fetch results, the current date, the
`pandas.to_datetime` parser) becomes explicit data (`FeedOutcome`, `Env`).
File system and stdout effects of the save functions are modelled as
explicit traces of `FsOp` operations.
-/

namespace NewsDigest

open scoped List

/-- Python strings, modelled as lists of characters. -/
abbrev Str := List Char

/-- Model of Python `str.lower` (per-character lowercasing). -/
def lowerStr (s : Str) : Str := s.map Char.toLower

/-- Model of the Python substring test `needle in haystack`. -/
def containsSubstr (needle : Str) : Str → Bool
  | [] => needle.isEmpty
  | c :: rest => needle.isPrefixOf (c :: rest) || containsSubstr needle rest

theorem containsSubstr_iff (needle haystack : Str) :
    containsSubstr needle haystack = true ↔ needle <:+: haystack := by
  induction haystack with
  | nil => simp [containsSubstr]
  | cons c rest ih => simp [containsSubstr, ih, List.infix_cons_iff]

/-- Model of Python string comparison `s <= t`: lexicographic by
character code point, with a proper initial segment smaller. -/
def strLe : Str → Str → Bool
  | [], _ => true
  | _ :: _, [] => false
  | a :: as, b :: bs => if a = b then strLe as bs else decide (a < b)

theorem strLe_refl (s : Str) : strLe s s = true := by
  induction s with
  | nil => rfl
  | cons a as ih => simp [strLe, ih]

theorem strLe_total (a b : Str) : strLe a b || strLe b a := by
  induction a generalizing b with
  | nil => simp [strLe]
  | cons x xs ih =>
    cases b with
    | nil => simp [strLe]
    | cons y ys =>
      by_cases hxy : x = y
      · subst hxy
        simpa [strLe] using ih ys
      · rcases lt_or_gt_of_ne hxy with h | h
        · simp [strLe, hxy, h]
        · simp [strLe, hxy, Ne.symm hxy, h, not_lt_of_gt h]

theorem strLe_trans (a b c : Str) (hab : strLe a b) (hbc : strLe b c) :
    strLe a c := by
  induction a generalizing b c with
  | nil => simp [strLe]
  | cons x xs ih =>
    cases b with
    | nil => simp [strLe] at hab
    | cons y ys =>
      cases c with
      | nil => simp [strLe] at hbc
      | cons z zs =>
        simp only [strLe] at hab hbc ⊢
        by_cases hxy : x = y
        · subst hxy
          by_cases hyz : x = z
          · subst hyz
            simp only [if_pos rfl] at hab hbc ⊢
            exact ih ys zs hab hbc
          · simp only [if_pos rfl] at hab
            simpa [hyz] using hbc
        · by_cases hyz : y = z
          · subst hyz
            simpa [hxy] using hab
          · simp only [if_neg hxy] at hab
            simp only [if_neg hyz] at hbc
            have hxy2 : x < y := by simpa using hab
            have hyz2 : y < z := by simpa using hbc
            have hxz : x < z := lt_trans hxy2 hyz2
            simp [ne_of_lt hxz, hxz]

/-- The fixed marker list `english_markers` from
`_is_related_to_automation` (source line 93). -/
def english_markers : List Str :=
  ["the".data, "and".data, "is".data, "in".data, "to".data, "of".data,
   "for".data, "a".data, "with".data, "that".data]

/-- Model of `_is_related_to_automation` (source lines 74-105): lowercase
the space-joined concatenation of title and description, count how many
markers appear space-padded inside the space-padded text, require at
least 2, and require some configured keyword (lowercased) to be a
substring of the text. Debug printing is ignored as pure output. -/
def is_related_to_automation (keywords : List Str)
    (title description : Str) : Bool :=
  let text_to_check := lowerStr (title ++ " ".data ++ description)
  let english_word_count := english_markers.countP fun word =>
    containsSubstr (" ".data ++ word ++ " ".data)
      (" ".data ++ text_to_check ++ " ".data)
  let is_english := decide (2 ≤ english_word_count)
  let is_automation_related := keywords.any fun keyword =>
    containsSubstr (lowerStr keyword) text_to_check
  is_automation_related && is_english

/-- C1: the Relevance Filter accepts a (title, description) pair if and
only if, on the lowercased space-joined concatenation of title and
description, at least 2 of the 10 fixed markers occur as space-delimited
tokens of the space-padded text (each marker counted at most once), and
at least one configured keyword, lowercased, occurs as a substring of
the text. -/
theorem relevance_filter_characterization (keywords : List Str)
    (title description : Str) :
    is_related_to_automation keywords title description = true ↔
      (2 ≤ english_markers.countP (fun word =>
          containsSubstr (" ".data ++ word ++ " ".data)
            (" ".data ++ lowerStr (title ++ " ".data ++ description)
              ++ " ".data))
        ∧ ∃ keyword ∈ keywords,
            lowerStr keyword <:+: lowerStr (title ++ " ".data ++ description)) := by
  simp only [is_related_to_automation, Bool.and_eq_true, decide_eq_true_eq,
    List.any_eq_true, containsSubstr_iff]
  exact and_comm

/-- Closed instance of C1: a concrete accepted pair, obtained through
the characterization. -/
theorem relevance_filter_characterization_witness :
    is_related_to_automation ["automation".data]
      "The new automation platform is here".data ("".data) = true :=
  (relevance_filter_characterization ["automation".data]
      "The new automation platform is here".data ("".data)).mpr
    ⟨by decide, "automation".data, by decide, by decide⟩

/-- A news item as assembled by `fetch_feed` (source lines 171-177). -/
structure NewsItem where
  title : Str
  url : Str
  description : Str
  source : Str
  date : Str
deriving DecidableEq

/-- What the code observes of a structured publication timestamp
(`entry.published_parsed`): its Python truthiness, and the result of
`time.strftime` on it (`none` models the formatting call raising). -/
structure StructTime where
  truthy : Bool
  fmt : Option Str
deriving DecidableEq

/-- A raw parsed feed entry, as consumed by `fetch_feed` (source lines
134-162). Per the RawEntry data model, `title` is always yielded by the
parser (possibly empty), while the other fields are optional attributes:
`none` models a missing attribute. `content` models the list of content
blocks, each reduced to its `value` string. -/
structure RawEntry where
  title : Str
  link : Option Str
  summary : Option Str
  description : Option Str
  content : List Str
  published_parsed : Option StructTime
  pubDate : Option Str
deriving DecidableEq

/-- The ambient environment of one run: the current processing date
formatted `YYYY-MM-DD` (`datetime.now().strftime`), the current
date-time string used by `generate_html`, and the external string date
parser (`pd.to_datetime` followed by `strftime`; `none` models a raised
parse error). -/
structure Env where
  today : Str
  nowStr : Str
  parsePubDate : Str → Option Str

/-- Description extraction (source lines 141-147): first of summary,
description, first content block value, else the empty string. -/
def entryDescription (entry : RawEntry) : Str :=
  match entry.summary with
  | some s => s
  | none =>
    match entry.description with
    | some s => s
    | none =>
      match entry.content with
      | c :: _ => c
      | [] => []

/-- The `elif hasattr(entry, 'pubDate')` branch of the date logic
(source lines 156-162): parse the string date, keeping the default on
failure. -/
def pubDateFallback (env : Env) (entry : RawEntry) : Str :=
  match entry.pubDate with
  | some s => (env.parsePubDate s).getD env.today
  | none => env.today

/-- Publication date extraction (source lines 149-162): default to
today; if `published_parsed` is present and truthy, use its formatted
value, keeping the default if formatting raises (the string branch is
not consulted in that case); otherwise try the string date. -/
def entryDate (env : Env) (entry : RawEntry) : Str :=
  match entry.published_parsed with
  | some st => if st.truthy then st.fmt.getD env.today else pubDateFallback env entry
  | none => pubDateFallback env entry

/-- Scan for the closing `>` of a tag opened just before the argument:
the regex `<.*?>` matches minimally, and `.` does not match a newline,
so the match ends at the first `>` reached without crossing a newline.
Returns the remainder after that `>`, or `none` if the match fails. -/
def findTagEnd : Str → Option Str
  | [] => none
  | c :: rest =>
    if c = '>' then some rest
    else if c = '\n' then none
    else findTagEnd rest

/-- Model of `re.sub(r'<.*?>', '', s)` (source line 167), with explicit
fuel for structural recursion: scan left to right; at each `<` try to
complete a minimal tag match and drop it, otherwise copy the character.
Each successful match consumes at least one character, so fuel equal to
the length of the string (see `stripTags`) is never exhausted. -/
def stripTagsFuel : Nat → Str → Str
  | _, [] => []
  | 0, s => s
  | fuel + 1, c :: rest =>
    if c = '<' then
      match findTagEnd rest with
      | some rest2 => stripTagsFuel fuel rest2
      | none => c :: stripTagsFuel fuel rest
    else c :: stripTagsFuel fuel rest

/-- HTML tag stripping, `re.sub(r'<.*?>', '', s)` (source line 167). -/
def stripTags (s : Str) : Str := stripTagsFuel s.length s

/-- Description truncation (source line 169): texts longer than 200
characters are cut to 200 characters plus an ellipsis marker. -/
def truncateDescription (clean_description : Str) : Str :=
  if 200 < clean_description.length then
    clean_description.take 200 ++ "...".data
  else clean_description

/-- C6: after tag stripping, a cleaned description longer than 200
characters is stored as exactly its first 200 characters followed by
the three-character ellipsis marker, total length 203; a cleaned
description of at most 200 characters is stored unchanged. -/
theorem truncation_law (description : Str) :
    (200 < (stripTags description).length →
      truncateDescription (stripTags description)
          = (stripTags description).take 200 ++ "...".data
        ∧ (truncateDescription (stripTags description)).length = 203)
    ∧ ((stripTags description).length ≤ 200 →
      truncateDescription (stripTags description) = stripTags description) := by
  constructor
  · intro h
    rw [truncateDescription, if_pos h]
    refine ⟨rfl, ?_⟩
    simp [List.length_take]
    omega
  · intro h
    rw [truncateDescription, if_neg (by omega)]

set_option maxRecDepth 20000 in
/-- Closed instance of C6 at a 210-character description and at a short
description. -/
theorem truncation_law_witness :
    truncateDescription (stripTags (List.replicate 210 'a'))
        = (stripTags (List.replicate 210 'a')).take 200 ++ "...".data
      ∧ (truncateDescription (stripTags (List.replicate 210 'a'))).length = 203
      ∧ truncateDescription (stripTags ("short".data)) = stripTags ("short".data) :=
  ⟨((truncation_law (List.replicate 210 'a')).1 (by decide)).1,
   ((truncation_law (List.replicate 210 'a')).1 (by decide)).2,
   (truncation_law ("short".data)).2 (by decide)⟩

/-- Processing of one raw entry inside the `fetch_feed` loop (source
lines 134-180): extract title, url, description and date; keep the entry
only when title and url are non-empty (Python truthiness) and the
Relevance Filter accepts it, storing the tag-stripped, truncated
description. Returns `none` for a dropped entry. -/
def processEntry (env : Env) (keywords : List Str) (sourceName : Str)
    (entry : RawEntry) : Option NewsItem :=
  let title := entry.title
  let url := match entry.link with | some l => l | none => []
  let description := entryDescription entry
  let pub_date := entryDate env entry
  if !title.isEmpty && !url.isEmpty
      && is_related_to_automation keywords title description then
    let clean_description := stripTags description
    let truncated_description := truncateDescription clean_description
    some { title := title, url := url, description := truncated_description,
           source := sourceName, date := pub_date }
  else
    none

/-- Model of `fetch_feed` on an already parsed entry list (source lines
107-185): the kept items in feed order, paired with the number of
entries examined. Retrieval and parsing failures are modelled at the
caller (`FeedOutcome.parsed = none`), matching the source, where any
exception aborts the whole per-source attempt. -/
def fetch_feed (env : Env) (keywords : List Str) (feedName : Str)
    (entries : List RawEntry) : List NewsItem × Nat :=
  (entries.filterMap (processEntry env keywords feedName), entries.length)

/-- C7 hypothesis encoding, from the claim: the structured timestamp is
absent, falsy, or fails to format. -/
def structuredDateFails (entry : RawEntry) : Bool :=
  match entry.published_parsed with
  | none => true
  | some st => !st.truthy || st.fmt.isNone

/-- C8 hypothesis encoding, from the claim: the string-form date is
absent or fails to parse. -/
def stringDateFails (env : Env) (entry : RawEntry) : Bool :=
  match entry.pubDate with
  | none => true
  | some s => (env.parsePubDate s).isNone

/-- C8: when the structured timestamp is absent, falsy or fails to
format, and the string-form date is absent or fails to parse, the entry
is silently assigned the current processing date. Date extraction
(`entryDate`) is a total function, so no date parse failure can abort
the entry or the feed. -/
theorem date_defaults_to_today (env : Env) (entry : RawEntry)
    (h1 : structuredDateFails entry = true)
    (h2 : stringDateFails env entry = true) :
    entryDate env entry = env.today := by
  have hfb : pubDateFallback env entry = env.today := by
    rw [stringDateFails] at h2
    cases hpd : entry.pubDate with
    | none => simp [pubDateFallback, hpd]
    | some s =>
      rw [hpd] at h2
      simp only [Option.isNone_iff_eq_none] at h2
      simp [pubDateFallback, hpd, h2]
  rw [entryDate, structuredDateFails] at *
  cases hpp : entry.published_parsed with
  | none => exact hfb
  | some st =>
    rw [hpp] at h1
    by_cases ht : st.truthy
    · have hfmt : st.fmt = none := by
        rcases st with ⟨tr, fm⟩
        simp only at ht
        subst ht
        simpa using h1
      simp [ht, hfmt]
    · simp [ht, hfb]

/-- Closed instance of C8: an entry whose structured timestamp fails to
format and whose string date fails to parse gets the processing date. -/
theorem date_defaults_to_today_witness :
    entryDate
        { today := "2026-10-12".data, nowStr := "2026-10-12 08:00".data,
          parsePubDate := fun _ => none }
        { title := "t".data, link := none, summary := none,
          description := none, content := [],
          published_parsed := some { truthy := true, fmt := none },
          pubDate := some ("not a date".data) }
      = "2026-10-12".data :=
  date_defaults_to_today _ _ (by decide) (by decide)

/-- C7: an entry with no usable title and no link (modelled, following
the RawEntry data model, as an empty title and a missing link attribute)
is dropped by `fetch_feed`, which still returns the items of the
remaining entries and counts every entry examined; entry processing is a
total function, so such an entry cannot abort the per-source fetch. -/
theorem titleless_entry_dropped (env : Env) (keywords : List Str)
    (feedName : Str) (pre post : List RawEntry) (entry : RawEntry)
    (htitle : entry.title = []) (_hlink : entry.link = none) :
    (fetch_feed env keywords feedName (pre ++ entry :: post)).1
        = (fetch_feed env keywords feedName pre).1
          ++ (fetch_feed env keywords feedName post).1
      ∧ (fetch_feed env keywords feedName (pre ++ entry :: post)).2
        = pre.length + post.length + 1 := by
  have hdrop : processEntry env keywords feedName entry = none := by
    rw [processEntry]
    simp [htitle]
  constructor
  · simp [fetch_feed, List.filterMap_append, hdrop]
  · simp [fetch_feed]
    omega

/-- A concrete environment for closed instances. -/
def sampleEnv : Env :=
  { today := "2026-10-12".data, nowStr := "2026-10-12 08:00".data,
    parsePubDate := fun _ => none }

/-- A concrete keyword configuration for closed instances. -/
def sampleKeywords : List Str := ["automation".data]

/-- A concrete entry accepted by the Relevance Filter. -/
def sampleEntry : RawEntry :=
  { title := "The new automation platform is here".data,
    link := some ("https://example.com/a".data),
    summary := none, description := none, content := [],
    published_parsed := none, pubDate := none }

/-- A concrete entry with empty title and missing link. -/
def titlelessEntry : RawEntry :=
  { title := [], link := none, summary := none, description := none,
    content := [], published_parsed := none, pubDate := none }

/-- Closed instance of C7: a feed with an accepted entry on either side
of a titleless, linkless entry keeps both neighbours and counts all
three entries. -/
theorem titleless_entry_dropped_witness :
    (fetch_feed sampleEnv sampleKeywords ("TechCrunch".data)
          ([sampleEntry] ++ titlelessEntry :: [sampleEntry])).1
        = (fetch_feed sampleEnv sampleKeywords ("TechCrunch".data) [sampleEntry]).1
          ++ (fetch_feed sampleEnv sampleKeywords ("TechCrunch".data) [sampleEntry]).1
      ∧ (fetch_feed sampleEnv sampleKeywords ("TechCrunch".data)
          ([sampleEntry] ++ titlelessEntry :: [sampleEntry])).2 = 3 :=
  titleless_entry_dropped sampleEnv sampleKeywords ("TechCrunch".data)
    [sampleEntry] [sampleEntry] titlelessEntry rfl rfl

/-- The outcome of retrieving and parsing one feed source: its name and,
when retrieval and parsing succeeded, the parsed entry list. `none`
models an exception raised during `fetch_feed` network retrieval or
parsing, which the source re-raises to `fetch_news` (source line 190). -/
structure FeedOutcome where
  name : Str
  parsed : Option (List RawEntry)
deriving DecidableEq

/-- The mutable state of the `fetch_news` loop (source lines 192-231):
the accumulated `news_items` attribute plus the run counters. -/
structure AggState where
  news_items : List NewsItem
  successful_feeds : Nat
  failed_feeds : Nat
  total_entries_checked : Nat
deriving DecidableEq

/-- One iteration of the `fetch_news` source loop (source lines
205-224): on failure count the feed as failed and continue; on success
extend the accumulated items (extending with an empty list is a no-op,
matching the `if feed_items` branch), count the feed as successful, and
add its examined-entry count. -/
def stepSource (env : Env) (keywords : List Str) (st : AggState)
    (src : FeedOutcome) : AggState :=
  match src.parsed with
  | none => { st with failed_feeds := st.failed_feeds + 1 }
  | some entries =>
    let r := fetch_feed env keywords src.name entries
    { st with news_items := st.news_items ++ r.1,
              successful_feeds := st.successful_feeds + 1,
              total_entries_checked := st.total_entries_checked + r.2 }

/-- The descending date comparison used as the sort relation of
`self.news_items.sort(key=lambda x: x['date'], reverse=True)` (source
line 227): `a` may precede `b` when `a.date >= b.date`. -/
def dateGe (a b : NewsItem) : Bool := strLe b.date a.date

/-- Model of `fetch_news` (source lines 192-240): fold the per-source
step over the sources starting from the stored `news_items`
(`init_items`), then sort the accumulated collection stably by date
descending and truncate it to `max_results` when longer. The returned
state holds the final `news_items` (also the stored attribute after the
call) and the run counters. Printing and the politeness sleep are
ignored as pure output. -/
def fetch_news (env : Env) (keywords : List Str) (max_results : Nat)
    (init_items : List NewsItem) (sources : List FeedOutcome) : AggState :=
  let st := sources.foldl (stepSource env keywords)
    { news_items := init_items, successful_feeds := 0, failed_feeds := 0,
      total_entries_checked := 0 }
  let sorted := st.news_items.mergeSort dateGe
  let final := if max_results < sorted.length then sorted.take max_results
    else sorted
  { st with news_items := final }

/-- The items contributed by one source: none on failure, the fetched
items on success. -/
def itemsOfSource (env : Env) (keywords : List Str) (src : FeedOutcome) :
    List NewsItem :=
  match src.parsed with
  | none => []
  | some entries => (fetch_feed env keywords src.name entries).1

/-- The accumulated collection before sorting: the previously stored
items followed by each successful feed&apos;s items, feeds in listed
order. -/
def accumItems (env : Env) (keywords : List Str)
    (init_items : List NewsItem) (sources : List FeedOutcome) :
    List NewsItem :=
  init_items ++ (sources.map (itemsOfSource env keywords)).flatten

/-- The sorted collection before truncation. -/
def sortedItems (env : Env) (keywords : List Str)
    (init_items : List NewsItem) (sources : List FeedOutcome) :
    List NewsItem :=
  (accumItems env keywords init_items sources).mergeSort dateGe

theorem foldl_step_news_items (env : Env) (keywords : List Str)
    (sources : List FeedOutcome) (st : AggState) :
    (sources.foldl (stepSource env keywords) st).news_items
      = st.news_items ++ (sources.map (itemsOfSource env keywords)).flatten := by
  induction sources generalizing st with
  | nil => simp
  | cons s rest ih =>
    cases h : s.parsed with
    | none => simp [stepSource, itemsOfSource, h, ih]
    | some entries => simp [stepSource, itemsOfSource, h, ih]

theorem foldl_step_successful (env : Env) (keywords : List Str)
    (sources : List FeedOutcome) (st : AggState) :
    (sources.foldl (stepSource env keywords) st).successful_feeds
      = st.successful_feeds + sources.countP (fun s => s.parsed.isSome) := by
  induction sources generalizing st with
  | nil => simp
  | cons s rest ih =>
    cases h : s.parsed with
    | none => simp [stepSource, h, ih, List.countP_cons]
    | some entries => simp [stepSource, h, ih, List.countP_cons]; omega

theorem foldl_step_failed (env : Env) (keywords : List Str)
    (sources : List FeedOutcome) (st : AggState) :
    (sources.foldl (stepSource env keywords) st).failed_feeds
      = st.failed_feeds + sources.countP (fun s => s.parsed.isNone) := by
  induction sources generalizing st with
  | nil => simp
  | cons s rest ih =>
    cases h : s.parsed with
    | none => simp [stepSource, h, ih, List.countP_cons]; omega
    | some entries => simp [stepSource, h, ih, List.countP_cons]

theorem fetch_news_news_items (env : Env) (keywords : List Str)
    (max_results : Nat) (init_items : List NewsItem)
    (sources : List FeedOutcome) :
    (fetch_news env keywords max_results init_items sources).news_items
      = (sortedItems env keywords init_items sources).take max_results := by
  simp only [fetch_news, sortedItems, accumItems, foldl_step_news_items]
  split
  · rfl
  · next h =>
    rw [List.take_of_length_le (by omega)]

theorem fetch_news_successful (env : Env) (keywords : List Str)
    (max_results : Nat) (init_items : List NewsItem)
    (sources : List FeedOutcome) :
    (fetch_news env keywords max_results init_items sources).successful_feeds
      = sources.countP (fun s => s.parsed.isSome) := by
  simp only [fetch_news, foldl_step_successful]
  omega

theorem fetch_news_failed (env : Env) (keywords : List Str)
    (max_results : Nat) (init_items : List NewsItem)
    (sources : List FeedOutcome) :
    (fetch_news env keywords max_results init_items sources).failed_feeds
      = sources.countP (fun s => s.parsed.isNone) := by
  simp only [fetch_news, foldl_step_failed]
  omega

/-- C4: the collection returned by the aggregator never exceeds
`max_results`, and it always equals the first `max_results` items of the
sorted accumulated collection (when the sorted collection is within the
limit, taking `max_results` items keeps all of it, matching the guarded
truncation of the source). -/
theorem digest_bounded (env : Env) (keywords : List Str)
    (max_results : Nat) (init_items : List NewsItem)
    (sources : List FeedOutcome) :
    (fetch_news env keywords max_results init_items sources).news_items.length
        ≤ max_results
      ∧ (fetch_news env keywords max_results init_items sources).news_items
        = (sortedItems env keywords init_items sources).take max_results := by
  refine ⟨?_, fetch_news_news_items ..⟩
  rw [fetch_news_news_items, List.length_take]
  exact Nat.min_le_left _ _

/-- C3: the final collection is non-increasing by date string under
lexicographic comparison on every adjacent pair, and the items bearing
any fixed date form a prefix of the equally dated items of the
accumulated collection (per-feed order within each feed, feeds in
listed order): ties keep their accumulation order. -/
theorem digest_sorted_and_stable (env : Env) (keywords : List Str)
    (max_results : Nat) (init_items : List NewsItem)
    (sources : List FeedOutcome) :
    List.Chain' (fun a b => dateGe a b = true)
        (fetch_news env keywords max_results init_items sources).news_items
      ∧ ∀ d : Str,
        (fetch_news env keywords max_results init_items sources).news_items.filter
            (fun n => decide (n.date = d))
          <+: (accumItems env keywords init_items sources).filter
            (fun n => decide (n.date = d)) := by
  have trans : ∀ a b c : NewsItem, dateGe a b → dateGe b c → dateGe a c :=
    fun a b c h1 h2 => strLe_trans c.date b.date a.date h2 h1
  have total : ∀ a b : NewsItem, dateGe a b || dateGe b a :=
    fun a b => strLe_total b.date a.date
  have hsorted : (sortedItems env keywords init_items sources).Pairwise
      (fun a b => dateGe a b = true) :=
    List.sorted_mergeSort trans total _
  constructor
  · rw [fetch_news_news_items]
    exact (List.Pairwise.sublist (List.take_sublist _ _) hsorted).chain'
  · intro d
    have hFpw : ((accumItems env keywords init_items sources).filter
        (fun n => decide (n.date = d))).Pairwise (fun a b => dateGe a b = true) := by
      apply List.pairwise_of_forall_mem_list
      intro a ha b hb
      have ha2 : a.date = d := by simpa using (List.mem_filter.mp ha).2
      have hb2 : b.date = d := by simpa using (List.mem_filter.mp hb).2
      unfold dateGe
      rw [ha2, hb2]
      exact strLe_refl d
    have hFsub : (accumItems env keywords init_items sources).filter
        (fun n => decide (n.date = d)) <+ sortedItems env keywords init_items sources :=
      List.sublist_mergeSort trans total hFpw (List.filter_sublist _)
    have hFF : ((accumItems env keywords init_items sources).filter
          (fun n => decide (n.date = d))).filter (fun n => decide (n.date = d))
        = (accumItems env keywords init_items sources).filter
          (fun n => decide (n.date = d)) :=
      List.filter_eq_self.mpr fun a ha => (List.mem_filter.mp ha).2
    have h1 : (accumItems env keywords init_items sources).filter
          (fun n => decide (n.date = d))
        <+ (sortedItems env keywords init_items sources).filter
          (fun n => decide (n.date = d)) := by
      have h2 := hFsub.filter (fun n => decide (n.date = d))
      rwa [hFF] at h2
    have hlen : ((sortedItems env keywords init_items sources).filter
          (fun n => decide (n.date = d))).length
        = ((accumItems env keywords init_items sources).filter
          (fun n => decide (n.date = d))).length :=
      ((List.mergeSort_perm _ _).filter _).length_eq
    have hfe : (accumItems env keywords init_items sources).filter
          (fun n => decide (n.date = d))
        = (sortedItems env keywords init_items sources).filter
          (fun n => decide (n.date = d)) :=
      h1.eq_of_length hlen.symm
    rw [hfe, fetch_news_news_items]
    exact List.IsPrefix.filter _
      ⟨(sortedItems env keywords init_items sources).drop max_results,
        List.take_append_drop _ _⟩

/-- C5: with 3 sources of which only the second fails, the aggregator
reports one failed and two successful feeds, and (when within the result
limit) the returned collection consists exactly of the items of sources
1 and 3. -/
theorem partial_failure_tolerated (env : Env) (keywords : List Str)
    (max_results : Nat) (name1 name2 name3 : Str)
    (e1 e3 : List RawEntry) :
    (fetch_news env keywords max_results []
        [⟨name1, some e1⟩, ⟨name2, none⟩, ⟨name3, some e3⟩]).failed_feeds = 1
      ∧ (fetch_news env keywords max_results []
        [⟨name1, some e1⟩, ⟨name2, none⟩, ⟨name3, some e3⟩]).successful_feeds = 2
      ∧ ((fetch_feed env keywords name1 e1).1.length
            + (fetch_feed env keywords name3 e3).1.length ≤ max_results →
        (fetch_news env keywords max_results []
            [⟨name1, some e1⟩, ⟨name2, none⟩, ⟨name3, some e3⟩]).news_items
          ~ (fetch_feed env keywords name1 e1).1
            ++ (fetch_feed env keywords name3 e3).1) := by
  refine ⟨?_, ?_, ?_⟩
  · rw [fetch_news_failed]
    rfl
  · rw [fetch_news_successful]
    rfl
  · intro h
    have hacc : accumItems env keywords []
          [⟨name1, some e1⟩, ⟨name2, none⟩, ⟨name3, some e3⟩]
        = (fetch_feed env keywords name1 e1).1
          ++ (fetch_feed env keywords name3 e3).1 := by
      simp [accumItems, itemsOfSource]
    rw [fetch_news_news_items, sortedItems, hacc,
      List.take_of_length_le (by rw [List.length_mergeSort]; simpa using h)]
    exact List.mergeSort_perm _ _

theorem processEntry_some_inv (env : Env) (keywords : List Str)
    (sourceName : Str) (entry : RawEntry) (n : NewsItem)
    (h : processEntry env keywords sourceName entry = some n) :
    n.title ≠ [] ∧ n.url ≠ []
      ∧ is_related_to_automation keywords n.title (entryDescription entry)
        = true := by
  simp only [processEntry] at h
  cases ht : entry.title.isEmpty with
  | true => simp [ht] at h
  | false =>
    cases hu : (match entry.link with | some l => l | none => ([] : Str)).isEmpty with
    | true => simp [ht, hu] at h
    | false =>
      cases hr : is_related_to_automation keywords entry.title (entryDescription entry) with
      | false => simp [ht, hu, hr] at h
      | true =>
        rw [ht, hu, hr] at h
        simp only [Bool.not_false, Bool.and_self, if_true] at h
        obtain rfl := Option.some.inj h
        exact ⟨List.isEmpty_eq_false.mp ht, List.isEmpty_eq_false.mp hu, hr⟩

/-- C2: every item of a fresh aggregation run has a non-empty title and
a non-empty url, and was built by `processEntry` from an actual entry of
one of the sources, whose original, pre-stripping description together
with the item&apos;s title is accepted by the Relevance Filter. -/
theorem digest_items_wellformed (env : Env) (keywords : List Str)
    (max_results : Nat) (sources : List FeedOutcome) (n : NewsItem)
    (hn : n ∈ (fetch_news env keywords max_results [] sources).news_items) :
    n.title ≠ [] ∧ n.url ≠ []
      ∧ ∃ src ∈ sources, ∃ entries, src.parsed = some entries
        ∧ ∃ e ∈ entries, processEntry env keywords src.name e = some n
          ∧ is_related_to_automation keywords n.title (entryDescription e)
            = true := by
  rw [fetch_news_news_items] at hn
  have hn2 : n ∈ sortedItems env keywords [] sources :=
    List.mem_of_mem_take hn
  rw [sortedItems, List.mem_mergeSort] at hn2
  simp only [accumItems, List.nil_append, List.mem_flatten, List.mem_map] at hn2
  obtain ⟨l, ⟨src, hsrc, rfl⟩, hmem⟩ := hn2
  rw [itemsOfSource] at hmem
  split at hmem
  · simp at hmem
  · next entries heq =>
    rw [fetch_feed] at hmem
    simp only [List.mem_filterMap] at hmem
    obtain ⟨e, he, hpe⟩ := hmem
    obtain ⟨h1, h2, h3⟩ := processEntry_some_inv env keywords src.name e n hpe
    exact ⟨h1, h2, src, hsrc, entries, heq, e, he, hpe, h3⟩

/-- C9: `fetch_news` never clears the stored collection before
accumulating: its result is exactly the date-sorted, truncated extension
of the previously stored items, and whenever the accumulated collection
fits within `max_results`, every previously stored item is still present
in the result. -/
theorem fetch_news_accumulates (env : Env) (keywords : List Str)
    (max_results : Nat) (init_items : List NewsItem)
    (sources : List FeedOutcome) :
    (fetch_news env keywords max_results init_items sources).news_items
        = ((init_items
            ++ (sources.map (itemsOfSource env keywords)).flatten).mergeSort
              dateGe).take max_results
      ∧ ∀ n ∈ init_items,
        (accumItems env keywords init_items sources).length ≤ max_results →
          n ∈ (fetch_news env keywords max_results init_items sources).news_items := by
  constructor
  · rw [fetch_news_news_items]
    rfl
  · intro n hn hlen
    rw [fetch_news_news_items, sortedItems,
      List.take_of_length_le (by rw [List.length_mergeSort]; exact hlen),
      List.mem_mergeSort]
    show n ∈ init_items ++ _
    exact List.mem_append_left _ hn

/-- A concrete feed outcome that yields one accepted item. -/
def sampleSource : FeedOutcome :=
  { name := "TechCrunch".data, parsed := some [sampleEntry] }

/-- The item `fetch_feed` builds from `sampleEntry`. -/
def sampleItem : NewsItem :=
  { title := "The new automation platform is here".data,
    url := "https://example.com/a".data, description := [],
    source := "TechCrunch".data, date := "2026-10-12".data }

set_option maxRecDepth 40000 in
/-- Closed instance of C2 at a concrete one-source run. -/
theorem digest_items_wellformed_witness :
    sampleItem.title ≠ [] ∧ sampleItem.url ≠ []
      ∧ ∃ src ∈ [sampleSource], ∃ entries, src.parsed = some entries
        ∧ ∃ e ∈ entries,
          processEntry sampleEnv sampleKeywords src.name e = some sampleItem
            ∧ is_related_to_automation sampleKeywords sampleItem.title
              (entryDescription e) = true :=
  digest_items_wellformed sampleEnv sampleKeywords 10 [sampleSource] sampleItem
    (by
      rw [fetch_news_news_items]
      have hacc : accumItems sampleEnv sampleKeywords [] [sampleSource]
          = [sampleItem] := by decide
      rw [sortedItems, hacc, List.mergeSort_singleton]
      decide)

set_option maxRecDepth 40000 in
/-- Closed instance of C5: one accepting source, one failing source, one
empty source. -/
theorem partial_failure_tolerated_witness :
    (fetch_news sampleEnv sampleKeywords 10 []
        [⟨"A".data, some [sampleEntry]⟩, ⟨"B".data, none⟩,
          ⟨"C".data, some []⟩]).failed_feeds = 1
      ∧ (fetch_news sampleEnv sampleKeywords 10 []
        [⟨"A".data, some [sampleEntry]⟩, ⟨"B".data, none⟩,
          ⟨"C".data, some []⟩]).successful_feeds = 2
      ∧ (fetch_news sampleEnv sampleKeywords 10 []
          [⟨"A".data, some [sampleEntry]⟩, ⟨"B".data, none⟩,
            ⟨"C".data, some []⟩]).news_items
        ~ (fetch_feed sampleEnv sampleKeywords ("A".data) [sampleEntry]).1
          ++ (fetch_feed sampleEnv sampleKeywords ("C".data) []).1 :=
  ⟨(partial_failure_tolerated sampleEnv sampleKeywords 10
      ("A".data) ("B".data) ("C".data) [sampleEntry] []).1,
   (partial_failure_tolerated sampleEnv sampleKeywords 10
      ("A".data) ("B".data) ("C".data) [sampleEntry] []).2.1,
   (partial_failure_tolerated sampleEnv sampleKeywords 10
      ("A".data) ("B".data) ("C".data) [sampleEntry] []).2.2 (by decide)⟩

/-- Closed instance of C9: a previously stored item survives a second
aggregation run over an empty source list. -/
theorem fetch_news_accumulates_witness :
    sampleItem ∈ (fetch_news sampleEnv sampleKeywords 10 [sampleItem] []).news_items :=
  (fetch_news_accumulates sampleEnv sampleKeywords 10 [sampleItem] []).2
    sampleItem (by decide) (by decide)

/-- Grouping step of `generate_html` (source lines 298-303): Python
dicts preserve insertion order, so items are grouped under their source
in first-occurrence order, each group keeping item order. -/
def addToGroup : List (Str × List NewsItem) → NewsItem →
    List (Str × List NewsItem)
  | [], item => [(item.source, [item])]
  | (s, l) :: rest, item =>
    if s = item.source then (s, l ++ [item]) :: rest
    else (s, l) :: addToGroup rest item

/-- The `sources` dict of `generate_html`, as an ordered association
list. -/
def groupBySource (items : List NewsItem) : List (Str × List NewsItem) :=
  items.foldl addToGroup []

/-- The per-item HTML fragment of `generate_html` (source lines
320-326), whitespace included. -/
def itemHtml (item : NewsItem) : Str :=
  ("\n                <li style=\"margin-bottom: 15px;\">\n                    <a href=\"".data)
  ++ item.url
  ++ ("\" target=\"_blank\" style=\"color: #0066cc; text-decoration: none; font-weight: bold;\">".data)
  ++ item.title
  ++ ("</a>\n                    <div style=\"color: #333; margin: 5px 0;\">".data)
  ++ item.description
  ++ ("</div>\n                    <div style=\"color: #666; font-size: 0.8em;\">".data)
  ++ item.date
  ++ ("</div>\n                </li>\n                ".data)

/-- The per-source HTML fragment of `generate_html` (source lines
312-331), whitespace included. -/
def sourceHtml (group : Str × List NewsItem) : Str :=
  ("\n            <div style=\"margin-bottom: 30px;\">\n                <h2 style=\"color: #0066cc; margin-top: 30px; border-bottom: 1px solid #ddd; padding-bottom: 10px;\">".data)
  ++ group.1
  ++ ("</h2>\n                <ul style=\"list-style-type: none; padding: 0;\">\n            ".data)
  ++ (group.2.map itemHtml).flatten
  ++ ("\n                </ul>\n            </div>\n            ".data)

/-- Model of `generate_html` (source lines 292-337): the placeholder
paragraph when no items are stored, else the full digest document. -/
def generate_html (nowStr : Str) (news_items : List NewsItem) : Str :=
  if news_items.isEmpty then ("<p>No news items found.</p>".data)
  else
    ("\n        <div style=\"font-family: Arial, sans-serif; max-width: 800px; margin: 0 auto; padding: 20px;\">\n            <h1 style=\"color: #333;\">Automation News Digest</h1>\n            <p>Generated on ".data)
    ++ nowStr
    ++ ("</p>\n        ".data)
    ++ ((groupBySource news_items).map sourceHtml).flatten
    ++ ("\n        </div>\n        ".data)

/-- One observable effect of a save function: a printed status line, a
directory creation (`os.makedirs`), a CSV serialization of rows by the
external `pandas` writer, or a text file write. -/
inductive FsOp where
  | printMsg (msg : Str)
  | makedirs (path : Str)
  | writeCsvRows (path : Str) (rows : List NewsItem)
  | writeTextFile (path : Str) (content : Str)
deriving DecidableEq

/-- Holds exactly for effects that touch neither the file system nor
any directory. -/
def isPrintOnly : FsOp → Bool
  | .printMsg _ => true
  | _ => false

/-- Decimal rendering of a natural number, for the status line. -/
def natStr (n : Nat) : Str := (Nat.repr n).data

/-- Model of `save_to_csv` (source lines 261-289) as its effect trace:
with no stored items it only prints a notice and returns; otherwise it
ensures the output folder, writes the rows to the dated (or given) file
under it, and prints a status line. -/
def save_to_csv (env : Env) (news_items : List NewsItem)
    (filename : Option Str) : List FsOp :=
  if news_items.isEmpty then [.printMsg ("No news items to save.".data)]
  else
    let folder_path := "automation_news_folder".data
    let fname := filename.getD
      (("automation_news_".data) ++ env.today ++ (".csv".data))
    let full_path := folder_path ++ ("/".data) ++ fname
    [.makedirs folder_path,
     .writeCsvRows full_path news_items,
     .printMsg (("Saved ".data) ++ natStr news_items.length
       ++ (" news items to ".data) ++ full_path)]

/-- Model of `save_to_html` (source lines 339-370) as its effect trace:
with no stored items it only prints a notice and returns; otherwise it
ensures the output folder, writes the generated HTML document to the
dated (or given) file under it, and prints a status line. -/
def save_to_html (env : Env) (news_items : List NewsItem)
    (filename : Option Str) : List FsOp :=
  if news_items.isEmpty then [.printMsg ("No news items to save.".data)]
  else
    let folder_path := "automation_news_folder".data
    let fname := filename.getD
      (("automation_news_".data) ++ env.today ++ (".html".data))
    let full_path := folder_path ++ ("/".data) ++ fname
    [.makedirs folder_path,
     .writeTextFile full_path (generate_html env.nowStr news_items),
     .printMsg (("Saved HTML digest to ".data) ++ full_path)]

/-- C10: on an empty stored collection both save functions return right
after printing the notice: their effect traces consist of that single
print, so no output directory is created and no CSV or HTML file is
written. -/
theorem empty_run_saves_nothing (env : Env)
    (filename1 filename2 : Option Str) :
    save_to_csv env [] filename1
        = [FsOp.printMsg ("No news items to save.".data)]
      ∧ save_to_html env [] filename2
        = [FsOp.printMsg ("No news items to save.".data)]
      ∧ (save_to_csv env [] filename1).all isPrintOnly = true
      ∧ (save_to_html env [] filename2).all isPrintOnly = true :=
  ⟨rfl, rfl, rfl, rfl⟩

end NewsDigest
